import Mathlib

/-!
Verification of the user-repository adapter (`adapters/postgres/users.go`)
and the user domain model (`backend/domains/userdomain/user.go`) of a
realworld-style backend, as a shallow embedding.

The relational store is modelled as an explicit state (`DB`); every SQL
statement of the adapter is a function of that state.  Each repository
operation additionally emits a trace of transaction events (`Ev`) in program
order, so that claims about transaction boundaries can be stated.  Rolling a
transaction back is modelled by returning the state the transaction started
from.  Driver/engine failures that do not follow from the data (connectivity
loss and the like) are modelled by optional injected faults on the write
statements; without a fault, a statement fails exactly when the data forces
it to (unique violation, no rows).
-/

/-- Go error values reaching the repository layer.  `pg code` stands for a
`pgconn.PgError` carrying the given SQLSTATE code, `noRows` for
`pgx.ErrNoRows`, `storage` for any other driver/engine error, and the first
two constructors for the `domain` package's sentinel errors
`ErrUserNotFound` and `ErrDuplicateUser`. -/
inductive Err where
  | userNotFound
  | duplicateUser
  | noRows
  | pg (code : String)
  | storage (msg : String)
  deriving DecidableEq, Repr

/-- The SQLSTATE code `pgerrcode.UniqueViolation`. -/
def uniqueViolation : String := "23505"

/-- The error translation performed at the two user persist sites
(`CreateUser`, `UpdateUserByEmail`): `errors.As` to a `pgconn.PgError` whose
code is `pgerrcode.UniqueViolation` yields `domain.ErrDuplicateUser`; every
other error is returned as-is. -/
def classifyUserErr (e : Err) : Err :=
  if e = Err.pg uniqueViolation then Err.duplicateUser else e

/-- The shape of `domain.User` as read and written by the adapter: the
columns selected by the `getUserByEmail` helper
(`u.email, u.username, u.bio, u.image, p.hash as password`). -/
structure User where
  email : String
  username : String
  bio : String
  image : String
  password : String
  deriving DecidableEq, Repr

/-- The shape of `domain.Fanboy` as built in `GetUserByEmail`: the base
`User` plus the two `map[string]interface{}` values used as string sets.
The maps are modelled by their key lists (duplicate-free when built by the
adapter, in first-insertion order). -/
structure Fanboy where
  user : User
  following : List String
  favorites : List String
  deriving DecidableEq, Repr

/-- A row of the `users` table. -/
structure UserRow where
  id : Nat
  email : String
  username : String
  bio : String
  image : String
  deriving DecidableEq, Repr

/-- The relational state touched by the user operations.  `passwords` holds
`user_passwords(id, hash)` rows, `followedUsers` holds
`followed_users(follower_id, followed_id)` rows, `favoritedArticles` holds
`favorited_articles(user_id, article_id)` rows and `articles` holds the
`(id, slug)` projection of the `articles` table.  `nextUserId` models the
id sequence backing `users.id`. -/
structure DB where
  users : List UserRow
  passwords : List (Nat × String)
  followedUsers : List (Nat × Nat)
  favoritedArticles : List (Nat × Nat)
  articles : List (Nat × String)
  nextUserId : Nat
  deriving DecidableEq, Repr

/-- Transaction and statement events, in program order.  A `none`
transaction id marks a statement run directly on the pool (`r.db`) outside
any explicit transaction. -/
inductive Ev where
  | beginTx (t : Nat)
  | commitTx (t : Nat)
  | rollbackTx (t : Nat)
  | readUser (t : Option Nat)
  | readQ (t : Option Nat)
  | writeStmt (t : Nat)
  deriving DecidableEq, Repr

/-- Rows produced by the join in the `getUserByEmail` helper:
`SELECT u.email, u.username, u.bio, u.image, p.hash as password FROM users
u, user_passwords p WHERE u.email = $1 AND u.id = p.id`. -/
def userJoin (db : DB) (em : String) : List User :=
  db.users.flatMap fun u =>
    if u.email = em then
      db.passwords.filterMap fun p =>
        if p.1 = u.id then
          some ⟨u.email, u.username, u.bio, u.image, p.2⟩
        else none
    else []

/-- Message of the scany error raised when a single-row scan sees several
rows. -/
def scanyManyRowsMsg : String := "scany: expected 1 row"

/-- The `getUserByEmail` helper (users.go): `pgxscan.Get` scans exactly one
row of the join; zero rows is `pgx.ErrNoRows`, which the helper translates
to `domain.ErrUserNotFound`; several rows is a scany error returned
as-is. -/
def getUserByEmail (db : DB) (em : String) : Except Err User :=
  match userJoin db em with
  | [] => Except.error Err.userNotFound
  | [u] => Except.ok u
  | _ => Except.error (Err.storage scanyManyRowsMsg)

/-- Rows of `SELECT f.email FROM users u, followed_users fu, users f WHERE
u.email = $1 AND u.id = fu.follower_id AND f.id = fu.followed_id`. -/
def followsQuery (db : DB) (em : String) : List String :=
  db.users.flatMap fun u =>
    if u.email = em then
      db.followedUsers.flatMap fun fu =>
        if fu.1 = u.id then
          (db.users.filter fun f => f.id == fu.2).map (fun f => f.email)
        else []
    else []

/-- Rows of `SELECT a.slug FROM users u, favorited_articles fa, articles a
WHERE u.email = $1 AND u.id = fa.user_id AND a.id = fa.article_id`. -/
def favorsQuery (db : DB) (em : String) : List String :=
  db.users.flatMap fun u =>
    if u.email = em then
      db.favoritedArticles.flatMap fun fa =>
        if fa.1 = u.id then
          (db.articles.filter fun a => a.1 == fa.2).map (fun a => a.2)
        else []
    else []

/-- Insertion of one key into a Go map used as a set; key order of the model
is first-insertion order. -/
def keyInsert (m : List String) (k : String) : List String :=
  if m.contains k then m else m ++ [k]

/-- The `strings.ToLower` call on the adapter's ASCII keys, modelled
characterwise. -/
def lower (s : String) : String :=
  ⟨s.data.map Char.toLower⟩

/-- Builds the `map[string]interface{}` set from a query's rows, lowercasing
each key, as the two loops in `GetUserByEmail` do. -/
def keysOf (ks : List String) : List String :=
  ks.foldl (fun m k => keyInsert m (lower k)) []

/-- The repository method `GetUserByEmail` (users.go): one transaction `t`;
the base user via the `getUserByEmail` helper, then the follows and the
favorites selects; the deferred `tx.Commit` runs on every return path, so
the trace always ends in a commit. -/
def GetUserByEmail (db : DB) (em : String) (t : Nat) :
    Except Err Fanboy × List Ev :=
  match getUserByEmail db em with
  | Except.error e =>
      (Except.error e, [Ev.beginTx t, Ev.readUser (some t), Ev.commitTx t])
  | Except.ok found =>
      (Except.ok ⟨found, keysOf (followsQuery db em), keysOf (favorsQuery db em)⟩,
        [Ev.beginTx t, Ev.readUser (some t), Ev.readQ (some t),
          Ev.readQ (some t), Ev.commitTx t])

/-- The statement `INSERT INTO users (email, username, bio, image) VALUES
($1,$2,$3,$4) RETURNING id`.  `fault` is an injected driver/engine failure;
without one, the engine raises a unique violation exactly when the email or
the username is already taken, and otherwise inserts the row under the next
sequence id. -/
def insertUsersStmt (db : DB) (u : User) (fault : Option Err) :
    Except Err (Nat × DB) :=
  match fault with
  | some e => Except.error e
  | none =>
      if db.users.any (fun r => r.email == u.email || r.username == u.username) then
        Except.error (Err.pg uniqueViolation)
      else
        Except.ok (db.nextUserId,
          { db with
            users := db.users ++ [⟨db.nextUserId, u.email, u.username, u.bio, u.image⟩]
            nextUserId := db.nextUserId + 1 })

/-- The repository method `CreateUser` (users.go): inserts the user row and
the password row in one transaction `t`; an error from the first insert is
classified (unique violation becomes `ErrDuplicateUser`), an error from the
second is returned as-is; on success it commits and re-reads through the
pool. -/
def CreateUser (db : DB) (u : User) (t : Nat) (fIns fPw : Option Err) :
    Except Err User × DB × List Ev :=
  match insertUsersStmt db u fIns with
  | Except.error e =>
      (Except.error (classifyUserErr e), db,
        [Ev.beginTx t, Ev.writeStmt t, Ev.rollbackTx t])
  | Except.ok (id, db1) =>
      match fPw with
      | some e =>
          (Except.error e, db,
            [Ev.beginTx t, Ev.writeStmt t, Ev.writeStmt t, Ev.rollbackTx t])
      | none =>
          let db2 := { db1 with passwords := db1.passwords ++ [(id, u.password)] }
          (getUserByEmail db2 u.email, db2,
            [Ev.beginTx t, Ev.writeStmt t, Ev.writeStmt t, Ev.commitTx t,
              Ev.readUser none])

/-- The statement `UPDATE users SET email = $2, username = $3, bio = $4,
image = $5 WHERE email = $1 RETURNING id` followed by `Scan`.  Without an
injected fault: zero matched rows surface as `pgx.ErrNoRows` from the scan;
the engine raises a unique violation when the new email or username
collides with a row not matched by the filter (or when several matched rows
would receive the same new identity); otherwise every matched row is
rewritten and the first matched row's id is scanned. -/
def updateUsersStmt (db : DB) (em : String) (u : User) (fault : Option Err) :
    Except Err (Nat × DB) :=
  match fault with
  | some e => Except.error e
  | none =>
      match db.users.filter (fun r => r.email == em) with
      | [] => Except.error Err.noRows
      | r0 :: rest =>
          if db.users.any (fun r =>
                r.email != em && (r.email == u.email || r.username == u.username))
              || !rest.isEmpty then
            Except.error (Err.pg uniqueViolation)
          else
            Except.ok (r0.id,
              { db with users := db.users.map (fun r =>
                  if r.email == em then
                    { r with
                      email := u.email,
                      username := u.username,
                      bio := u.bio,
                      image := u.image }
                  else r) })

/-- The repository method `UpdateUserByEmail` (users.go): transaction `t`;
load by the original email inside the transaction, apply the caller's
transform, rewrite the users row keyed by the original email, rewrite the
password row keyed by the id the update returned, commit, and re-read
through the pool under the transformed email.  Every error path rolls the
transaction back; only an error of the users update is classified. -/
def UpdateUserByEmail (db : DB) (em : String)
    (update : User → Except Err User) (t : Nat) (fUp fPw : Option Err) :
    Except Err User × DB × List Ev :=
  match getUserByEmail db em with
  | Except.error e =>
      (Except.error e, db, [Ev.beginTx t, Ev.readUser (some t), Ev.rollbackTx t])
  | Except.ok u0 =>
      match update u0 with
      | Except.error e =>
          (Except.error e, db,
            [Ev.beginTx t, Ev.readUser (some t), Ev.rollbackTx t])
      | Except.ok u1 =>
          match updateUsersStmt db em u1 fUp with
          | Except.error e =>
              (Except.error (classifyUserErr e), db,
                [Ev.beginTx t, Ev.readUser (some t), Ev.writeStmt t,
                  Ev.rollbackTx t])
          | Except.ok (id, db1) =>
              match fPw with
              | some e =>
                  (Except.error e, db,
                    [Ev.beginTx t, Ev.readUser (some t), Ev.writeStmt t,
                      Ev.writeStmt t, Ev.rollbackTx t])
              | none =>
                  let db2 := { db1 with passwords := db1.passwords.map (fun p =>
                      if p.1 == id then (p.1, u1.password) else p) }
                  (getUserByEmail db2 u1.email, db2,
                    [Ev.beginTx t, Ev.readUser (some t), Ev.writeStmt t,
                      Ev.writeStmt t, Ev.commitTx t, Ev.readUser none])

/-- The repository method `UpdateFanboyByEmail` (users.go): the aggregate is
loaded through the public `GetUserByEmail`, which runs and commits its own
transaction `t`; the caller's transform runs outside any transaction; a
second transaction `t+1` then deletes every follow edge whose follower is
this user and every favorite edge of this user, and re-inserts the edge sets
implied by the transformed fanboy's key sets, dropping empty keys in Go and
unresolvable keys by the set-membership joins. -/
def UpdateFanboyByEmail (db : DB) (em : String)
    (update : Fanboy → Except Err Fanboy) (t : Nat) :
    Except Err Unit × DB × List Ev :=
  match GetUserByEmail db em t with
  | (Except.error e, tr) => (Except.error e, db, tr)
  | (Except.ok f, tr) =>
      match update f with
      | Except.error e => (Except.error e, db, tr)
      | Except.ok f1 =>
          let db1 := { db with followedUsers := db.followedUsers.filter (fun e =>
              !(db.users.any fun u => u.email == em && e.1 == u.id)) }
          let db2 := { db1 with favoritedArticles :=
              db1.favoritedArticles.filter (fun e =>
                !(db1.users.any fun u => u.email == em && e.1 == u.id)) }
          let follows := f1.following.filter (fun k => k != "")
          let newFollows :=
            (db2.users.filter fun u => u.email == em).flatMap fun u =>
              (db2.users.filter fun v => follows.contains v.email).map fun v =>
                (u.id, v.id)
          let db3 := { db2 with followedUsers := db2.followedUsers ++ newFollows }
          let favors := f1.favorites.filter (fun k => k != "")
          let newFavors :=
            (db3.users.filter fun u => u.email == em).flatMap fun u =>
              (db3.articles.filter fun a => favors.contains a.2).map fun a =>
                (u.id, a.1)
          let db4 := { db3 with favoritedArticles := db3.favoritedArticles ++ newFavors }
          (Except.ok (), db4,
            tr ++ [Ev.beginTx (t+1), Ev.writeStmt (t+1), Ev.writeStmt (t+1),
              Ev.writeStmt (t+1), Ev.writeStmt (t+1), Ev.commitTx (t+1)])

/-- The repository method `GetAuthorByEmail` (users.go): the same lookup as
the `getUserByEmail` helper, run on the pool; any error yields `nil`; the
Go signature carries no error result. -/
def GetAuthorByEmail (db : DB) (em : String) : Option User :=
  match getUserByEmail db em with
  | Except.error _ => none
  | Except.ok u => some u

/-- Well-formedness of the relational state: the uniqueness invariants the
schema enforces on the touched tables (user ids, emails and usernames
pairwise distinct; password-row ids pairwise distinct; article ids and
slugs pairwise distinct). -/
def WF (db : DB) : Prop :=
  db.users.Pairwise (fun a b => a.id ≠ b.id ∧ a.email ≠ b.email ∧ a.username ≠ b.username)
  ∧ db.passwords.Pairwise (fun a b => a.1 ≠ b.1)
  ∧ db.articles.Pairwise (fun a b => a.1 ≠ b.1 ∧ a.2 ≠ b.2)

/-- The transaction id of the first aggregate-load read of a trace. -/
def firstLoadTx (tr : List Ev) : Option (Option Nat) :=
  tr.findSome? fun e =>
    match e with
    | Ev.readUser t => some t
    | _ => none

/-- The transaction ids of all write statements of a trace. -/
def writeTxs (tr : List Ev) : List Nat :=
  tr.filterMap fun e =>
    match e with
    | Ev.writeStmt t => some t
    | _ => none

/-- Decides whether a trace follows the load-inside-the-persist-transaction
discipline of the read-transform-write protocol: the trace opens with a
transaction begin, the first aggregate load runs inside that transaction,
and every write statement runs in that same transaction. -/
def loadInPersistTx (tr : List Ev) : Bool :=
  match firstLoadTx tr with
  | some (some t) =>
      tr.head? == some (Ev.beginTx t) && (writeTxs tr).all (fun s => s == t)
  | _ => false

deriving instance DecidableEq for Except

instance (db : DB) : Decidable (WF db) := by
  unfold WF; infer_instance

/-- Example row: the user whose edges the example calls rewrite. -/
def meRow : UserRow := ⟨1, "me@x.com", "me", "bio-me", "img-me"⟩

/-- Example row: followed user A. -/
def aRow : UserRow := ⟨2, "a@x.com", "a", "", ""⟩

/-- Example row: followed user B. -/
def bRow : UserRow := ⟨3, "b@x.com", "b", "", ""⟩

/-- Example row: user C, not yet followed. -/
def cRow : UserRow := ⟨4, "c@x.com", "c", "", ""⟩

/-- An example well-formed state: four users with password rows, `me`
following A and B and favoriting the only article. -/
def exDB : DB :=
  { users := [meRow, aRow, bRow, cRow],
    passwords := [(1, "h1"), (2, "h2"), (3, "h3"), (4, "h4")],
    followedUsers := [(1, 2), (1, 3), (2, 1)],
    favoritedArticles := [(1, 10)],
    articles := [(10, "t-title")],
    nextUserId := 5 }

/-- The email of the example user. -/
def emMe : String := "me@x.com"

/-- The fanboy projection `GetUserByEmail` yields for `emMe` on `exDB`. -/
def exFanboy : Fanboy :=
  ⟨⟨"me@x.com", "me", "bio-me", "img-me", "h1"⟩,
    ["a@x.com", "b@x.com"], ["t-title"]⟩

/-- The empty state. -/
def emptyDB : DB := ⟨[], [], [], [], [], 1⟩

/-- Example transform replacing the following set by B, C and an empty
key (following set A,B becomes B,C). -/
def replaceFollowing : Fanboy → Except Err Fanboy :=
  fun f => Except.ok { f with following := ["b@x.com", "c@x.com", ""] }

/-- Message of the example transform failure. -/
def failMsg : String := "transform boom"

/-- Example failing user transform. -/
def failUserTransform : User → Except Err User :=
  fun _ => Except.error (Err.storage failMsg)

/-- Example failing fanboy transform. -/
def failFanboyTransform : Fanboy → Except Err Fanboy :=
  fun _ => Except.error (Err.storage failMsg)

/-- Example identity fanboy transform. -/
def keepFanboy : Fanboy → Except Err Fanboy := fun f => Except.ok f

/-- Example transform changing the user's natural key (email). -/
def rekeyTransform : User → Except Err User :=
  fun u => Except.ok { u with email := "me2@x.com", bio := "b2" }

/-- Example transform that collides with A's username. -/
def collideTransform : User → Except Err User :=
  fun u => Except.ok { u with username := "a" }

/-- Example user whose email duplicates A's. -/
def dupUser : User := ⟨"a@x.com", "x", "", "", "pw"⟩

/-- Example user with a fresh identity. -/
def freshUser : User := ⟨"new@x.com", "new", "", "", "pw"⟩

/-- The user produced by `rekeyTransform` on the example user. -/
def rekeyedUser : User := ⟨"me2@x.com", "me", "b2", "img-me", "h1"⟩

/-- The user produced by `collideTransform` on the example user. -/
def collidedUser : User := ⟨"me@x.com", "a", "bio-me", "img-me", "h1"⟩

/-- The example user row after the rekeying update statement. -/
def rekeyedRow : UserRow := ⟨1, "me2@x.com", "me", "b2", "img-me"⟩

/-- The example state after the rekeying users update statement. -/
def exDBRekeyedUsers : DB := { exDB with users := [rekeyedRow, aRow, bRow, cRow] }

/-- The fanboy produced by `replaceFollowing` on the example fanboy. -/
def replacedFanboy : Fanboy :=
  ⟨⟨"me@x.com", "me", "bio-me", "img-me", "h1"⟩,
    ["b@x.com", "c@x.com", ""], ["t-title"]⟩

/-- The empty string. -/
def emptyStr : String := ""

namespace userdomain

/-- The domain model `userdomain.User` (user.go): a user with a list of
(pointers to) followed users. -/
inductive User where
  | mk (email username bio image : String) (following : List User)

/-- Field accessor for `email`. -/
def User.email : User → String
  | User.mk e _ _ _ _ => e

/-- Field accessor for `username`. -/
def User.username : User → String
  | User.mk _ un _ _ _ => un

/-- Field accessor for `bio`. -/
def User.bio : User → String
  | User.mk _ _ b _ _ => b

/-- Field accessor for `image`. -/
def User.image : User → String
  | User.mk _ _ _ i _ => i

/-- Field accessor for `following`. -/
def User.following : User → List User
  | User.mk _ _ _ _ f => f

/-- Errors of the `userdomain` package; `external` stands for an error
value returned by the bcrypt library. -/
inductive UErr where
  | errorRequiredNewUserFields
  | errorRequiredUserFields
  | external (msg : String)
  deriving DecidableEq, Repr

/-- The constructor `userdomain.NewUser` (user.go): email and username are
required; bio and image are stored as given; the following list starts
empty. -/
def NewUser (email username bio image : String) : Except UErr User :=
  if email.length == 0 || username.length == 0 then
    Except.error UErr.errorRequiredUserFields
  else
    Except.ok (User.mk email username bio image [])

/-- The result shape of `userdomain.NewUserWithPassword`: the base user
and the bcrypt hash bytes. -/
structure UserWithPassword where
  user : User
  password : List Nat

/-- The constructor `userdomain.NewUserWithPassword` (user.go): an empty
password is rejected first; then `NewUser` runs with empty bio and image;
then `bcrypt.GenerateFromPassword` (modelled by the function argument
`bcryptGen`, an external effect) produces the hash. -/
def NewUserWithPassword (bcryptGen : String → Except UErr (List Nat))
    (email username password : String) : Except UErr UserWithPassword :=
  if password.length == 0 then
    Except.error UErr.errorRequiredNewUserFields
  else
    match NewUser email username emptyStr emptyStr with
    | Except.error e => Except.error e
    | Except.ok u =>
        match bcryptGen password with
        | Except.error e => Except.error e
        | Except.ok pw => Except.ok ⟨u, pw⟩

/-- The method `User.IsFollowing` (user.go): membership by email in the
following list. -/
def User.IsFollowing (u fu : User) : Bool :=
  u.following.any (fun f => f.email == fu.email)

/-- The method `User.StartFollowing` (user.go): a no-op when already
following, otherwise appends; the Go receiver mutation is modelled by
returning the new user value. -/
def User.StartFollowing (u fu : User) : User :=
  if u.IsFollowing fu then u
  else
    match u with
    | User.mk e un b i fl => User.mk e un b i (fl ++ [fu])

end userdomain

/-- Example non-empty email string. -/
def sE : String := "e@x"

/-- Example non-empty username string. -/
def sU : String := "u1"

/-- Example bio string. -/
def sB : String := "b1"

/-- Example image string. -/
def sI : String := "i1"

/-- Example bcrypt stand-in that always hashes successfully. -/
def bcryptGen0 : String → Except userdomain.UErr (List Nat) :=
  fun _ => Except.ok [0]

/-- Example domain user to be followed. -/
def udF : userdomain.User := ⟨"f@x", "f", "", "", []⟩

/-- Example domain user already following `udF`. -/
def udU : userdomain.User := ⟨"u@x", "u", "", "", [⟨"f@x", "f", "", "", []⟩]⟩


lemma mem_keyInsert {s k : String} {m : List String} :
    s ∈ keyInsert m k ↔ s ∈ m ∨ s = k := by
  unfold keyInsert
  split
  · rename_i h
    have hk : k ∈ m := by simpa using h
    constructor
    · exact Or.inl
    · rintro (hs | rfl)
      · exact hs
      · exact hk
  · simp

lemma mem_keysOf_aux (ks : List String) :
    ∀ m s, s ∈ ks.foldl (fun m k => keyInsert m (lower k)) m ↔
      s ∈ m ∨ ∃ k ∈ ks, s = lower k := by
  induction ks with
  | nil => simp
  | cons k ks ih =>
    intro m s
    rw [List.foldl_cons, ih, mem_keyInsert]
    constructor
    · rintro ((hs | rfl) | ⟨k₁, hk₁, rfl⟩)
      · exact Or.inl hs
      · exact Or.inr ⟨k, List.mem_cons_self k ks, rfl⟩
      · exact Or.inr ⟨k₁, List.mem_cons_of_mem _ hk₁, rfl⟩
    · rintro (hs | ⟨k₁, hk₁, rfl⟩)
      · exact Or.inl (Or.inl hs)
      · rcases List.mem_cons.mp hk₁ with rfl | hk₁
        · exact Or.inl (Or.inr rfl)
        · exact Or.inr ⟨k₁, hk₁, rfl⟩

lemma mem_keysOf {s : String} {ks : List String} :
    s ∈ keysOf ks ↔ ∃ k ∈ ks, s = lower k := by
  unfold keysOf
  rw [mem_keysOf_aux]
  simp

lemma key_inj {α κ : Type} (key : α → κ) {l : List α}
    (hp : l.Pairwise fun a b => key a ≠ key b) {a b : α}
    (ha : a ∈ l) (hb : b ∈ l) (hk : key a = key b) : a = b := by
  by_contra hne
  have hsym : Symmetric (fun a b : α => key a ≠ key b) :=
    fun x y h he => h he.symm
  exact hp.forall hsym ha hb hne hk

lemma filter_key_singleton {α κ : Type} [DecidableEq κ] (key : α → κ) (k : κ)
    {l : List α} (hp : l.Pairwise fun a b => key a ≠ key b) {a : α}
    (ha : a ∈ l) (hk : key a = k) :
    l.filter (fun x => key x == k) = [a] := by
  induction l with
  | nil => cases ha
  | cons b l ih =>
    rw [List.pairwise_cons] at hp
    rcases List.mem_cons.mp ha with rfl | hal
    · rw [List.filter_cons_of_pos (by simp [hk])]
      have hnil : l.filter (fun x => key x == k) = [] := by
        rw [List.filter_eq_nil_iff]
        intro c hc
        simp only [beq_iff_eq]
        rw [← hk]
        exact fun h => hp.1 c hc h.symm
      rw [hnil]
    · have hbk : key b ≠ k := by
        rw [← hk]
        exact fun h => hp.1 a hal h
      rw [List.filter_cons_of_neg (by simp [hbk])]
      exact ih hp.2 hal

lemma filterMap_if_len_le_one {α β κ : Type} [DecidableEq κ] (key : α → κ)
    (k : κ) (g : α → β) {l : List α}
    (hp : l.Pairwise fun a b => key a ≠ key b) :
    (l.filterMap fun p => if key p = k then some (g p) else none).length ≤ 1 := by
  induction l with
  | nil => simp
  | cons p l ih =>
    rw [List.pairwise_cons] at hp
    by_cases hpk : key p = k
    · rw [List.filterMap_cons_some (by simp [hpk] : _ = some (g p))]
      have : (l.filterMap fun q => if key q = k then some (g q) else none) = [] := by
        rw [List.filterMap_eq_nil_iff]
        intro q hq
        rw [if_neg]
        rw [← hpk]
        exact fun h => hp.1 q hq h.symm
      rw [this]
      simp
    · rw [List.filterMap_cons_none (by simp [hpk])]
      exact ih hp.2

lemma flatMap_len_le_one {α β : Type} (f : α → List β) {l : List α}
    (hp : l.Pairwise fun a b => f a = [] ∨ f b = [])
    (h1 : ∀ a ∈ l, (f a).length ≤ 1) : (l.flatMap f).length ≤ 1 := by
  induction l with
  | nil => simp
  | cons a l ih =>
    rw [List.pairwise_cons] at hp
    rw [List.flatMap_cons, List.length_append]
    by_cases hfa : f a = []
    · rw [hfa]
      simpa using ih hp.2 (fun b hb => h1 b (List.mem_cons_of_mem _ hb))
    · have hl : l.flatMap f = [] := by
        rw [List.flatMap_eq_nil_iff]
        intro b hb
        rcases hp.1 b hb with h | h
        · exact absurd h hfa
        · exact h
      rw [hl]
      simpa using h1 a (List.mem_cons_self a l)

lemma length_le_one_mem_eq {α : Type} {l : List α} (h : l.length ≤ 1) {a : α}
    (ha : a ∈ l) : l = [a] := by
  match l, ha with
  | [x], ha => rw [List.mem_singleton.mp ha]
  | x :: y :: l, _ => simp at h

lemma mem_userJoin {db : DB} {em : String} {x : User} :
    x ∈ userJoin db em ↔
      ∃ u ∈ db.users, ∃ p ∈ db.passwords, u.email = em ∧ p.1 = u.id ∧
        x = ⟨u.email, u.username, u.bio, u.image, p.2⟩ := by
  unfold userJoin
  rw [List.mem_flatMap]
  constructor
  · rintro ⟨u, hu, hx⟩
    by_cases he : u.email = em
    · rw [if_pos he] at hx
      rw [List.mem_filterMap] at hx
      obtain ⟨p, hp, hif⟩ := hx
      by_cases hpid : p.1 = u.id
      · rw [if_pos hpid] at hif
        exact ⟨u, hu, p, hp, he, hpid, (Option.some.injEq _ _).mp hif |>.symm⟩
      · rw [if_neg hpid] at hif
        cases hif
    · rw [if_neg he] at hx
      cases hx
  · rintro ⟨u, hu, p, hp, he, hpid, rfl⟩
    refine ⟨u, hu, ?_⟩
    rw [if_pos he, List.mem_filterMap]
    exact ⟨p, hp, by rw [if_pos hpid]⟩

lemma userJoin_len_le_one {db : DB} (hwf : WF db) (em : String) :
    (userJoin db em).length ≤ 1 := by
  apply flatMap_len_le_one
  · apply List.Pairwise.imp ?_ hwf.1
    intro a b hab
    by_cases ha : a.email = em
    · right
      rw [if_neg]
      rw [← ha]
      exact fun h => hab.2.1 h.symm
    · left
      rw [if_neg ha]
  · intro u _
    by_cases he : u.email = em
    · rw [if_pos he]
      exact filterMap_if_len_le_one (fun p : Nat × String => p.1) u.id _ hwf.2.1
    · rw [if_neg he]
      simp

lemma userJoin_singleton {db : DB} {em : String} {u : UserRow} {p : Nat × String}
    (hwf : WF db) (hu : u ∈ db.users) (hem : u.email = em)
    (hp : p ∈ db.passwords) (hpid : p.1 = u.id) :
    userJoin db em = [⟨u.email, u.username, u.bio, u.image, p.2⟩] :=
  length_le_one_mem_eq (userJoin_len_le_one hwf em)
    (mem_userJoin.mpr ⟨u, hu, p, hp, hem, hpid, rfl⟩)

lemma getUserByEmail_ok {db : DB} {em : String} {u : UserRow} {p : Nat × String}
    (hwf : WF db) (hu : u ∈ db.users) (hem : u.email = em)
    (hp : p ∈ db.passwords) (hpid : p.1 = u.id) :
    getUserByEmail db em = Except.ok ⟨u.email, u.username, u.bio, u.image, p.2⟩ := by
  unfold getUserByEmail
  rw [userJoin_singleton hwf hu hem hp hpid]

lemma getUserByEmail_ok_inv {db : DB} {em : String} {x : User}
    (h : getUserByEmail db em = Except.ok x) :
    ∃ u ∈ db.users, ∃ p ∈ db.passwords, u.email = em ∧ p.1 = u.id ∧
      x = ⟨u.email, u.username, u.bio, u.image, p.2⟩ := by
  unfold getUserByEmail at h
  rcases hu : userJoin db em with _ | ⟨y, _ | ⟨z, l⟩⟩ <;> rw [hu] at h
  · simp at h
  · simp only [] at h
    have hyx : y = x := by
      injection h
    rw [← hyx]
    exact mem_userJoin.mp (hu ▸ List.mem_singleton_self y)
  · simp at h

lemma getUserByEmail_none {db : DB} {em : String}
    (h : ∀ u ∈ db.users, u.email = em → ∀ p ∈ db.passwords, p.1 ≠ u.id) :
    getUserByEmail db em = Except.error Err.userNotFound := by
  unfold getUserByEmail
  have hj : userJoin db em = [] := by
    rw [List.eq_nil_iff_forall_not_mem]
    intro x hx
    obtain ⟨u, hu, p, hp, hem, hpid, _⟩ := mem_userJoin.mp hx
    exact h u hu hem p hp hpid
  rw [hj]

lemma mem_followsQuery {db : DB} {em s : String} :
    s ∈ followsQuery db em ↔
      ∃ u ∈ db.users, u.email = em ∧ ∃ fu ∈ db.followedUsers, fu.1 = u.id ∧
        ∃ v ∈ db.users, v.id = fu.2 ∧ s = v.email := by
  unfold followsQuery
  rw [List.mem_flatMap]
  constructor
  · rintro ⟨u, hu, hx⟩
    by_cases he : u.email = em
    · rw [if_pos he, List.mem_flatMap] at hx
      obtain ⟨fu, hfu, hx⟩ := hx
      by_cases hid : fu.1 = u.id
      · rw [if_pos hid, List.mem_map] at hx
        obtain ⟨v, hv, rfl⟩ := hx
        rw [List.mem_filter] at hv
        exact ⟨u, hu, he, fu, hfu, hid, v, hv.1, by simpa using hv.2, rfl⟩
      · rw [if_neg hid] at hx
        cases hx
    · rw [if_neg he] at hx
      cases hx
  · rintro ⟨u, hu, he, fu, hfu, hid, v, hv, hvid, rfl⟩
    refine ⟨u, hu, ?_⟩
    rw [if_pos he, List.mem_flatMap]
    refine ⟨fu, hfu, ?_⟩
    rw [if_pos hid, List.mem_map]
    exact ⟨v, List.mem_filter.mpr ⟨hv, by simpa using hvid⟩, rfl⟩

lemma mem_favorsQuery {db : DB} {em s : String} :
    s ∈ favorsQuery db em ↔
      ∃ u ∈ db.users, u.email = em ∧ ∃ fa ∈ db.favoritedArticles, fa.1 = u.id ∧
        ∃ a ∈ db.articles, a.1 = fa.2 ∧ s = a.2 := by
  unfold favorsQuery
  rw [List.mem_flatMap]
  constructor
  · rintro ⟨u, hu, hx⟩
    by_cases he : u.email = em
    · rw [if_pos he, List.mem_flatMap] at hx
      obtain ⟨fa, hfa, hx⟩ := hx
      by_cases hid : fa.1 = u.id
      · rw [if_pos hid, List.mem_map] at hx
        obtain ⟨a, ha, rfl⟩ := hx
        rw [List.mem_filter] at ha
        exact ⟨u, hu, he, fa, hfa, hid, a, ha.1, by simpa using ha.2, rfl⟩
      · rw [if_neg hid] at hx
        cases hx
    · rw [if_neg he] at hx
      cases hx
  · rintro ⟨u, hu, he, fa, hfa, hid, a, ha, haid, rfl⟩
    refine ⟨u, hu, ?_⟩
    rw [if_pos he, List.mem_flatMap]
    refine ⟨fa, hfa, ?_⟩
    rw [if_pos hid, List.mem_map]
    exact ⟨a, List.mem_filter.mpr ⟨ha, by simpa using haid⟩, rfl⟩

lemma users_email_inj {db : DB} (hwf : WF db) {a b : UserRow}
    (ha : a ∈ db.users) (hb : b ∈ db.users) (h : a.email = b.email) : a = b :=
  key_inj (fun r => r.email)
    (hwf.1.imp (fun hab => hab.2.1)) ha hb h

lemma users_id_inj {db : DB} (hwf : WF db) {a b : UserRow}
    (ha : a ∈ db.users) (hb : b ∈ db.users) (h : a.id = b.id) : a = b :=
  key_inj (fun r => r.id)
    (hwf.1.imp (fun hab => hab.1)) ha hb h

lemma mem_followsQuery_wf {db : DB} {em s : String} {r0 : UserRow} (hwf : WF db)
    (hr0 : r0 ∈ db.users) (hem : r0.email = em) :
    s ∈ followsQuery db em ↔
      ∃ v ∈ db.users, (r0.id, v.id) ∈ db.followedUsers ∧ s = v.email := by
  rw [mem_followsQuery]
  constructor
  · rintro ⟨u, hu, he, fu, hfu, hid, v, hv, hvid, rfl⟩
    have hur : u = r0 := users_email_inj hwf hu hr0 (he.trans hem.symm)
    refine ⟨v, hv, ?_, rfl⟩
    have hfu2 : fu = (r0.id, v.id) := by
      rcases fu with ⟨f1, f2⟩
      simp only [Prod.mk.injEq]
      constructor
      · rw [← hur]
        exact hid
      · exact hvid.symm
    rw [← hfu2]
    exact hfu
  · rintro ⟨v, hv, hmem, rfl⟩
    exact ⟨r0, hr0, hem, (r0.id, v.id), hmem, rfl, v, hv, rfl, rfl⟩

lemma mem_favorsQuery_wf {db : DB} {em s : String} {r0 : UserRow} (hwf : WF db)
    (hr0 : r0 ∈ db.users) (hem : r0.email = em) :
    s ∈ favorsQuery db em ↔
      ∃ a ∈ db.articles, (r0.id, a.1) ∈ db.favoritedArticles ∧ s = a.2 := by
  rw [mem_favorsQuery]
  constructor
  · rintro ⟨u, hu, he, fa, hfa, hid, a, ha, haid, rfl⟩
    have hur : u = r0 := users_email_inj hwf hu hr0 (he.trans hem.symm)
    refine ⟨a, ha, ?_, rfl⟩
    have hfa2 : fa = (r0.id, a.1) := by
      rcases fa with ⟨f1, f2⟩
      simp only [Prod.mk.injEq]
      constructor
      · rw [← hur]
        exact hid
      · exact haid.symm
    rw [← hfa2]
    exact hfa
  · rintro ⟨a, ha, hmem, rfl⟩
    exact ⟨r0, hr0, hem, (r0.id, a.1), hmem, rfl, a, ha, rfl, rfl⟩

/-- Claim C7: for every existing user email, `GetUserByEmail` returns a
`Fanboy` whose `Following` set holds exactly the lowercased emails of the
users this user follows and whose `Favorites` set holds exactly the
lowercased slugs of the articles this user favorited, with the user row and
both derived sets read inside one transaction. -/
theorem GetUserByEmail_following_favorites (db : DB) (em : String) (t : Nat)
    (fb : Fanboy) (hwf : WF db)
    (hok : (GetUserByEmail db em t).1 = Except.ok fb) :
    ∃ r0 ∈ db.users, r0.email = em ∧
      (∃ p ∈ db.passwords, p.1 = r0.id ∧
        fb.user = ⟨r0.email, r0.username, r0.bio, r0.image, p.2⟩) ∧
      (∀ s, s ∈ fb.following ↔
        ∃ v ∈ db.users, (r0.id, v.id) ∈ db.followedUsers ∧ s = lower v.email) ∧
      (∀ s, s ∈ fb.favorites ↔
        ∃ a ∈ db.articles, (r0.id, a.1) ∈ db.favoritedArticles ∧ s = lower a.2) ∧
      (GetUserByEmail db em t).2 =
        [Ev.beginTx t, Ev.readUser (some t), Ev.readQ (some t),
          Ev.readQ (some t), Ev.commitTx t] := by
  cases hg : getUserByEmail db em with
  | error e =>
      unfold GetUserByEmail at hok
      rw [hg] at hok
      simp at hok
  | ok found =>
      unfold GetUserByEmail at hok ⊢
      rw [hg] at hok ⊢
      simp only [] at hok
      have hfb : fb = ⟨found, keysOf (followsQuery db em), keysOf (favorsQuery db em)⟩ := by
        injection hok with hok
        exact hok.symm
      obtain ⟨u, hu, p, hp, hem, hpid, hfound⟩ := getUserByEmail_ok_inv hg
      refine ⟨u, hu, hem, ⟨p, hp, hpid, ?_⟩, ?_, ?_, rfl⟩
      · rw [hfb]
        rw [hfound]
      · intro s
        rw [hfb]
        simp only []
        rw [mem_keysOf]
        constructor
        · rintro ⟨k, hk, rfl⟩
          obtain ⟨v, hv, hmem, rfl⟩ := (mem_followsQuery_wf hwf hu hem).mp hk
          exact ⟨v, hv, hmem, rfl⟩
        · rintro ⟨v, hv, hmem, rfl⟩
          exact ⟨v.email, (mem_followsQuery_wf hwf hu hem).mpr ⟨v, hv, hmem, rfl⟩, rfl⟩
      · intro s
        rw [hfb]
        simp only []
        rw [mem_keysOf]
        constructor
        · rintro ⟨k, hk, rfl⟩
          obtain ⟨a, ha, hmem, rfl⟩ := (mem_favorsQuery_wf hwf hu hem).mp hk
          exact ⟨a, ha, hmem, rfl⟩
        · rintro ⟨a, ha, hmem, rfl⟩
          exact ⟨a.2, (mem_favorsQuery_wf hwf hu hem).mpr ⟨a, ha, hmem, rfl⟩, rfl⟩

/-- Witness for C7 at the example state. -/
theorem GetUserByEmail_following_favorites_witness :
    WF exDB ∧ (GetUserByEmail exDB emMe 0).1 = Except.ok exFanboy ∧
      (∃ r0 ∈ exDB.users, r0.email = emMe ∧
        (∃ p ∈ exDB.passwords, p.1 = r0.id ∧
          exFanboy.user = ⟨r0.email, r0.username, r0.bio, r0.image, p.2⟩) ∧
        (∀ s, s ∈ exFanboy.following ↔
          ∃ v ∈ exDB.users, (r0.id, v.id) ∈ exDB.followedUsers ∧ s = lower v.email) ∧
        (∀ s, s ∈ exFanboy.favorites ↔
          ∃ a ∈ exDB.articles, (r0.id, a.1) ∈ exDB.favoritedArticles ∧ s = lower a.2) ∧
        (GetUserByEmail exDB emMe 0).2 =
          [Ev.beginTx 0, Ev.readUser (some 0), Ev.readQ (some 0),
            Ev.readQ (some 0), Ev.commitTx 0]) :=
  ⟨by decide, by decide,
    GetUserByEmail_following_favorites exDB emMe 0 exFanboy (by decide) (by decide)⟩

/-- Claim C8: `GetAuthorByEmail` never returns an error: when a user with
that email exists together with a password row, it returns that user as
the read-only author; in every other case it returns `none`.  The Go
signature has no error result, matched here by the `Option` return type. -/
theorem GetAuthorByEmail_total (db : DB) (em : String) (hwf : WF db) :
    ((∃ u ∈ db.users, u.email = em ∧ ∃ p ∈ db.passwords, p.1 = u.id) →
      ∃ u ∈ db.users, ∃ p ∈ db.passwords, u.email = em ∧ p.1 = u.id ∧
        GetAuthorByEmail db em = some ⟨u.email, u.username, u.bio, u.image, p.2⟩) ∧
    ((¬ ∃ u ∈ db.users, u.email = em ∧ ∃ p ∈ db.passwords, p.1 = u.id) →
      GetAuthorByEmail db em = none) := by
  constructor
  · rintro ⟨u, hu, hem, p, hp, hpid⟩
    refine ⟨u, hu, p, hp, hem, hpid, ?_⟩
    unfold GetAuthorByEmail
    rw [getUserByEmail_ok hwf hu hem hp hpid]
  · intro h
    unfold GetAuthorByEmail
    rw [getUserByEmail_none]
    intro u hu hem p hp hpid
    exact h ⟨u, hu, hem, p, hp, hpid⟩

/-- Witness for C8: the present and the absent case at example states. -/
theorem GetAuthorByEmail_total_witness :
    WF exDB ∧
      (∃ u ∈ exDB.users, ∃ p ∈ exDB.passwords, u.email = emMe ∧ p.1 = u.id ∧
        GetAuthorByEmail exDB emMe = some ⟨u.email, u.username, u.bio, u.image, p.2⟩) ∧
      GetAuthorByEmail exDB failMsg = none :=
  ⟨by decide,
    (GetAuthorByEmail_total exDB emMe (by decide)).1 (by decide),
    (GetAuthorByEmail_total exDB failMsg (by decide)).2 (by decide)⟩

/-- Claim C6: `UpdateFanboyByEmail` leaves the users rows, the
password-credential rows and the articles (and the id sequence) unchanged
on every path, whatever the transform did; only the two edge tables are
written. -/
theorem UpdateFanboyByEmail_frame :
    ∀ (db : DB) (em : String) (upd : Fanboy → Except Err Fanboy) (t : Nat),
      (UpdateFanboyByEmail db em upd t).2.1.users = db.users ∧
      (UpdateFanboyByEmail db em upd t).2.1.passwords = db.passwords ∧
      (UpdateFanboyByEmail db em upd t).2.1.articles = db.articles ∧
      (UpdateFanboyByEmail db em upd t).2.1.nextUserId = db.nextUserId := by
  intro db em upd t
  unfold UpdateFanboyByEmail
  rcases hg : GetUserByEmail db em t with ⟨res, tr⟩
  cases res with
  | error e => exact ⟨rfl, rfl, rfl, rfl⟩
  | ok f =>
      dsimp only
      cases hu : upd f with
      | error e => exact ⟨rfl, rfl, rfl, rfl⟩
      | ok f1 => exact ⟨rfl, rfl, rfl, rfl⟩

lemma GetUserByEmail_no_writes (db : DB) (em : String) (t : Nat) :
    writeTxs (GetUserByEmail db em t).2 = [] := by
  unfold GetUserByEmail
  cases getUserByEmail db em with
  | error e => rfl
  | ok found => rfl

/-- Claim C2: a transform error is propagated verbatim by both update
operations, never wrapped or reclassified; nothing is persisted: the state
is unchanged, `UpdateUserByEmail` rolls its open transaction back, and
`UpdateFanboyByEmail` (whose transform runs between its two transactions)
performs no write statement at all. -/
theorem transform_error_verbatim :
    (∀ (db : DB) (em : String) (upd : User → Except Err User) (t : Nat)
        (fUp fPw : Option Err) (u0 : User) (e : Err),
      getUserByEmail db em = Except.ok u0 → upd u0 = Except.error e →
        (UpdateUserByEmail db em upd t fUp fPw).1 = Except.error e ∧
        (UpdateUserByEmail db em upd t fUp fPw).2.1 = db ∧
        (UpdateUserByEmail db em upd t fUp fPw).2.2 =
          [Ev.beginTx t, Ev.readUser (some t), Ev.rollbackTx t]) ∧
    (∀ (db : DB) (em : String) (upd : Fanboy → Except Err Fanboy) (t : Nat)
        (f0 : Fanboy) (e : Err),
      (GetUserByEmail db em t).1 = Except.ok f0 → upd f0 = Except.error e →
        (UpdateFanboyByEmail db em upd t).1 = Except.error e ∧
        (UpdateFanboyByEmail db em upd t).2.1 = db ∧
        writeTxs ((UpdateFanboyByEmail db em upd t).2.2) = []) := by
  constructor
  · intro db em upd t fUp fPw u0 e hl hu
    unfold UpdateUserByEmail
    rw [hl]
    dsimp only
    rw [hu]
    exact ⟨rfl, rfl, rfl⟩
  · intro db em upd t f0 e hl hu
    have hw := GetUserByEmail_no_writes db em t
    unfold UpdateFanboyByEmail
    rcases hg : GetUserByEmail db em t with ⟨res, tr⟩
    rw [hg] at hl hw
    simp only [] at hl hw
    subst hl
    dsimp only
    rw [hu]
    exact ⟨rfl, rfl, hw⟩

/-- Witness for C2 at the example state and a failing transform. -/
theorem transform_error_verbatim_witness :
    getUserByEmail exDB emMe = Except.ok exFanboy.user ∧
      (UpdateUserByEmail exDB emMe failUserTransform 0 none none).1 =
        Except.error (Err.storage failMsg) ∧
      (UpdateUserByEmail exDB emMe failUserTransform 0 none none).2.1 = exDB ∧
      (UpdateFanboyByEmail exDB emMe failFanboyTransform 0).1 =
        Except.error (Err.storage failMsg) ∧
      (UpdateFanboyByEmail exDB emMe failFanboyTransform 0).2.1 = exDB :=
  ⟨by decide,
    (transform_error_verbatim.1 exDB emMe failUserTransform 0 none none
      exFanboy.user (Err.storage failMsg) (by decide) (by decide)).1,
    (transform_error_verbatim.1 exDB emMe failUserTransform 0 none none
      exFanboy.user (Err.storage failMsg) (by decide) (by decide)).2.1,
    (transform_error_verbatim.2 exDB emMe failFanboyTransform 0
      exFanboy (Err.storage failMsg) (by decide) (by decide)).1,
    (transform_error_verbatim.2 exDB emMe failFanboyTransform 0
      exFanboy (Err.storage failMsg) (by decide) (by decide)).2.1⟩

/-- Claim C3: for `CreateUser` and `UpdateUserByEmail`, a unique violation
raised by the store while persisting the user row is translated to
`domain.ErrDuplicateUser` and the whole transaction is rolled back (in
`CreateUser` both inserts together); every other storage error — injected
as a fault at either statement — is returned as-is, also with a full
rollback.  The credential statements carry no uniqueness constraint, so
faults there range over the non-unique-violation errors. -/
theorem unique_violation_translation :
    (∀ (db : DB) (u : User) (t : Nat) (fPw : Option Err),
      db.users.any (fun r => r.email == u.email || r.username == u.username) = true →
        (CreateUser db u t none fPw).1 = Except.error Err.duplicateUser ∧
        (CreateUser db u t none fPw).2.1 = db) ∧
    (∀ (db : DB) (u : User) (t : Nat) (fPw : Option Err) (e : Err),
      (CreateUser db u t (some e) fPw).2.1 = db ∧
      (e = Err.pg uniqueViolation →
        (CreateUser db u t (some e) fPw).1 = Except.error Err.duplicateUser) ∧
      (e ≠ Err.pg uniqueViolation →
        (CreateUser db u t (some e) fPw).1 = Except.error e)) ∧
    (∀ (db : DB) (u : User) (t : Nat) (e : Err),
      db.users.any (fun r => r.email == u.email || r.username == u.username) = false →
      e ≠ Err.pg uniqueViolation →
        (CreateUser db u t none (some e)).1 = Except.error e ∧
        (CreateUser db u t none (some e)).2.1 = db) ∧
    (∀ (db : DB) (em : String) (upd : User → Except Err User) (t : Nat)
        (fPw : Option Err) (u0 u1 : User),
      WF db → getUserByEmail db em = Except.ok u0 → upd u0 = Except.ok u1 →
      db.users.any (fun r =>
        r.email != em && (r.email == u1.email || r.username == u1.username)) = true →
        (UpdateUserByEmail db em upd t none fPw).1 = Except.error Err.duplicateUser ∧
        (UpdateUserByEmail db em upd t none fPw).2.1 = db) ∧
    (∀ (db : DB) (em : String) (upd : User → Except Err User) (t : Nat)
        (fPw : Option Err) (u0 u1 : User) (e : Err),
      getUserByEmail db em = Except.ok u0 → upd u0 = Except.ok u1 →
        (UpdateUserByEmail db em upd t (some e) fPw).2.1 = db ∧
        (e = Err.pg uniqueViolation →
          (UpdateUserByEmail db em upd t (some e) fPw).1 =
            Except.error Err.duplicateUser) ∧
        (e ≠ Err.pg uniqueViolation →
          (UpdateUserByEmail db em upd t (some e) fPw).1 = Except.error e)) ∧
    (∀ (db : DB) (em : String) (upd : User → Except Err User) (t : Nat)
        (u0 u1 : User) (id1 : Nat) (db1 : DB) (e : Err),
      getUserByEmail db em = Except.ok u0 → upd u0 = Except.ok u1 →
      updateUsersStmt db em u1 none = Except.ok (id1, db1) →
      e ≠ Err.pg uniqueViolation →
        (UpdateUserByEmail db em upd t none (some e)).1 = Except.error e ∧
        (UpdateUserByEmail db em upd t none (some e)).2.1 = db) := by
  refine ⟨?_, ?_, ?_, ?_, ?_, ?_⟩
  · intro db u t fPw hdup
    unfold CreateUser insertUsersStmt
    try dsimp only
    rw [hdup]
    try dsimp only
    simp [classifyUserErr]
  · intro db u t fPw e
    unfold CreateUser insertUsersStmt
    try dsimp only
    refine ⟨rfl, ?_, ?_⟩
    · intro he
      simp [classifyUserErr, he]
    · intro he
      simp [classifyUserErr, he]
  · intro db u t e hdup he
    unfold CreateUser insertUsersStmt
    try dsimp only
    rw [hdup]
    try dsimp only
    exact ⟨rfl, rfl⟩
  · intro db em upd t fPw u0 u1 hwf hl hu hviol
    obtain ⟨r0, hr0, p0, hp0, hem, hpid, hu0⟩ := getUserByEmail_ok_inv hl
    have hfil : db.users.filter (fun r => r.email == em) = [r0] :=
      filter_key_singleton (fun r => r.email) em
        (hwf.1.imp fun h => h.2.1) hr0 hem
    unfold UpdateUserByEmail
    rw [hl]
    try dsimp only
    rw [hu]
    try dsimp only
    unfold updateUsersStmt
    try dsimp only
    rw [hfil]
    try dsimp only
    rw [hviol]
    try dsimp only
    simp [classifyUserErr]
  · intro db em upd t fPw u0 u1 e hl hu
    unfold UpdateUserByEmail
    rw [hl]
    try dsimp only
    rw [hu]
    try dsimp only
    unfold updateUsersStmt
    try dsimp only
    refine ⟨rfl, ?_, ?_⟩
    · intro he
      simp [classifyUserErr, he]
    · intro he
      simp [classifyUserErr, he]
  · intro db em upd t u0 u1 id1 db1 e hl hu hstmt he
    unfold UpdateUserByEmail
    rw [hl]
    try dsimp only
    rw [hu]
    try dsimp only
    rw [hstmt]
    try dsimp only
    exact ⟨rfl, rfl⟩

/-- Witness for C3: all six cases at example states. -/
theorem unique_violation_translation_witness :
    ((CreateUser exDB dupUser 0 none none).1 = Except.error Err.duplicateUser ∧
      (CreateUser exDB dupUser 0 none none).2.1 = exDB) ∧
    (CreateUser exDB freshUser 0 (some (Err.pg uniqueViolation)) none).1 =
      Except.error Err.duplicateUser ∧
    (CreateUser exDB freshUser 0 (some (Err.storage failMsg)) none).1 =
      Except.error (Err.storage failMsg) ∧
    ((CreateUser exDB freshUser 0 none (some (Err.storage failMsg))).1 =
        Except.error (Err.storage failMsg) ∧
      (CreateUser exDB freshUser 0 none (some (Err.storage failMsg))).2.1 = exDB) ∧
    ((UpdateUserByEmail exDB emMe collideTransform 0 none none).1 =
        Except.error Err.duplicateUser ∧
      (UpdateUserByEmail exDB emMe collideTransform 0 none none).2.1 = exDB) ∧
    (UpdateUserByEmail exDB emMe rekeyTransform 0 (some (Err.pg uniqueViolation)) none).1 =
      Except.error Err.duplicateUser ∧
    (UpdateUserByEmail exDB emMe rekeyTransform 0 (some (Err.storage failMsg)) none).1 =
      Except.error (Err.storage failMsg) ∧
    ((UpdateUserByEmail exDB emMe rekeyTransform 0 none (some (Err.storage failMsg))).1 =
        Except.error (Err.storage failMsg) ∧
      (UpdateUserByEmail exDB emMe rekeyTransform 0 none (some (Err.storage failMsg))).2.1 =
        exDB) :=
  ⟨unique_violation_translation.1 exDB dupUser 0 none (by decide),
    (unique_violation_translation.2.1 exDB freshUser 0 none
      (Err.pg uniqueViolation)).2.1 rfl,
    (unique_violation_translation.2.1 exDB freshUser 0 none
      (Err.storage failMsg)).2.2 (by decide),
    unique_violation_translation.2.2.1 exDB freshUser 0 (Err.storage failMsg)
      (by decide) (by decide),
    unique_violation_translation.2.2.2.1 exDB emMe collideTransform 0 none
      exFanboy.user collidedUser (by decide) (by decide) (by decide) (by decide),
    (unique_violation_translation.2.2.2.2.1 exDB emMe rekeyTransform 0 none
      exFanboy.user rekeyedUser (Err.pg uniqueViolation) (by decide) (by decide)).2.1 rfl,
    (unique_violation_translation.2.2.2.2.1 exDB emMe rekeyTransform 0 none
      exFanboy.user rekeyedUser (Err.storage failMsg) (by decide) (by decide)).2.2
      (by decide),
    unique_violation_translation.2.2.2.2.2 exDB emMe rekeyTransform 0
      exFanboy.user rekeyedUser 1 exDBRekeyedUsers (Err.storage failMsg)
      (by decide) (by decide) (by decide) (by decide)⟩

lemma updateUsersStmt_ok {db : DB} {em : String} {u1 : User} {r0 : UserRow}
    (hfil : db.users.filter (fun r => r.email == em) = [r0])
    (hnv : db.users.any (fun r =>
      r.email != em && (r.email == u1.email || r.username == u1.username)) = false) :
    updateUsersStmt db em u1 none =
      Except.ok (r0.id,
        { db with users := db.users.map (fun r =>
            if r.email == em then
              { r with
                email := u1.email,
                username := u1.username,
                bio := u1.bio,
                image := u1.image }
            else r) }) := by
  unfold updateUsersStmt
  rw [hfil]
  dsimp only
  rw [hnv]
  rfl

/-- Claim C4: an `UpdateUserByEmail` whose transform changes the natural
key updates the row selected by the original email with the new attribute
values (including the new email), and after the commit the operation
re-reads and returns the user looked up under the new email. -/
theorem UpdateUserByEmail_rekey (db : DB) (em : String)
    (upd : User → Except Err User) (t : Nat) (u0 u1 : User)
    (hwf : WF db)
    (hl : getUserByEmail db em = Except.ok u0)
    (hu : upd u0 = Except.ok u1)
    (hnv : db.users.any (fun r =>
      r.email != em && (r.email == u1.email || r.username == u1.username)) = false) :
    ∃ r0 ∈ db.users, r0.email = em ∧
      (UpdateUserByEmail db em upd t none none).2.1.users =
        db.users.map (fun r =>
          if r.email == em then
            { r with
              email := u1.email,
              username := u1.username,
              bio := u1.bio,
              image := u1.image }
          else r) ∧
      (⟨r0.id, u1.email, u1.username, u1.bio, u1.image⟩ : UserRow) ∈
        (UpdateUserByEmail db em upd t none none).2.1.users ∧
      (UpdateUserByEmail db em upd t none none).1 =
        getUserByEmail (UpdateUserByEmail db em upd t none none).2.1 u1.email ∧
      (UpdateUserByEmail db em upd t none none).1 =
        Except.ok ⟨u1.email, u1.username, u1.bio, u1.image, u1.password⟩ := by
  obtain ⟨r0, hr0, p0, hp0, hem, hpid, hu0⟩ := getUserByEmail_ok_inv hl
  have hfil : db.users.filter (fun r => r.email == em) = [r0] :=
    filter_key_singleton (fun r => r.email) em (hwf.1.imp fun h => h.2.1) hr0 hem
  have hstmt := updateUsersStmt_ok hfil hnv
  have hnv2 : ∀ r ∈ db.users, r.email ≠ em →
      u1.email ≠ r.email ∧ u1.username ≠ r.username := by
    intro r hr hre
    have h2 := List.any_eq_false.mp hnv r hr
    simp only [Bool.and_eq_true, Bool.or_eq_true, beq_iff_eq, bne_iff_ne,
      not_and, not_or] at h2
    obtain ⟨he, hn⟩ := h2 hre
    exact ⟨fun h => he h.symm, fun h => hn h.symm⟩
  unfold UpdateUserByEmail
  rw [hl]
  dsimp only
  rw [hu]
  dsimp only
  rw [hstmt]
  dsimp only
  refine ⟨r0, hr0, hem, rfl, ?_, rfl, ?_⟩
  · rw [List.mem_map]
    refine ⟨r0, hr0, ?_⟩
    rw [if_pos (by simp [hem])]
  · have hgid : ∀ r : UserRow,
        (if r.email == em then
          { r with
            email := u1.email,
            username := u1.username,
            bio := u1.bio,
            image := u1.image }
        else r).id = r.id := by
      intro r
      split <;> rfl
    have hpfst : ∀ p : Nat × String,
        (if p.1 == r0.id then (p.1, u1.password) else p).1 = p.1 := by
      intro p
      split <;> rfl
    have hwf2 : WF { db with
        users := db.users.map (fun r =>
          if r.email == em then
            { r with
              email := u1.email,
              username := u1.username,
              bio := u1.bio,
              image := u1.image }
          else r),
        passwords := db.passwords.map (fun p =>
          if p.1 == r0.id then (p.1, u1.password) else p) } := by
      refine ⟨?_, ?_, hwf.2.2⟩
      · rw [List.pairwise_map]
        apply List.Pairwise.imp_of_mem ?_ hwf.1
        intro a b ha hb hab
        by_cases hae : a.email = em <;> by_cases hbe : b.email = em
        · exact absurd (hae.trans hbe.symm) hab.2.1
        · rw [if_pos (by simp [hae]), if_neg (by simp [hbe])]
          obtain ⟨h1, h2⟩ := hnv2 b hb hbe
          exact ⟨hab.1, h1, h2⟩
        · rw [if_neg (by simp [hae]), if_pos (by simp [hbe])]
          obtain ⟨h1, h2⟩ := hnv2 a ha hae
          exact ⟨hab.1, fun h => h1 h.symm, fun h => h2 h.symm⟩
        · rw [if_neg (by simp [hae]), if_neg (by simp [hbe])]
          exact hab
      · rw [List.pairwise_map]
        apply List.Pairwise.imp ?_ hwf.2.1
        intro a b hab
        rw [hpfst a, hpfst b]
        exact hab
    have hrow : (⟨r0.id, u1.email, u1.username, u1.bio, u1.image⟩ : UserRow) ∈
        db.users.map (fun r =>
          if r.email == em then
            { r with
              email := u1.email,
              username := u1.username,
              bio := u1.bio,
              image := u1.image }
          else r) := by
      rw [List.mem_map]
      refine ⟨r0, hr0, ?_⟩
      rw [if_pos (by simp [hem])]
    have hprow : (p0.1, u1.password) ∈ db.passwords.map (fun p =>
        if p.1 == r0.id then (p.1, u1.password) else p) := by
      rw [List.mem_map]
      refine ⟨p0, hp0, ?_⟩
      rw [if_pos (by simp [hpid])]
    exact getUserByEmail_ok hwf2 hrow rfl hprow hpid

/-- Witness for C4: rekeying the example user from `me@x.com` to
`me2@x.com`. -/
theorem UpdateUserByEmail_rekey_witness :
    ∃ r0 ∈ exDB.users, r0.email = emMe ∧
      (UpdateUserByEmail exDB emMe rekeyTransform 0 none none).2.1.users =
        exDB.users.map (fun r =>
          if r.email == emMe then
            { r with
              email := rekeyedUser.email,
              username := rekeyedUser.username,
              bio := rekeyedUser.bio,
              image := rekeyedUser.image }
          else r) ∧
      (⟨r0.id, rekeyedUser.email, rekeyedUser.username, rekeyedUser.bio,
          rekeyedUser.image⟩ : UserRow) ∈
        (UpdateUserByEmail exDB emMe rekeyTransform 0 none none).2.1.users ∧
      (UpdateUserByEmail exDB emMe rekeyTransform 0 none none).1 =
        getUserByEmail
          (UpdateUserByEmail exDB emMe rekeyTransform 0 none none).2.1
          rekeyedUser.email ∧
      (UpdateUserByEmail exDB emMe rekeyTransform 0 none none).1 =
        Except.ok ⟨rekeyedUser.email, rekeyedUser.username, rekeyedUser.bio,
          rekeyedUser.image, rekeyedUser.password⟩ :=
  UpdateUserByEmail_rekey exDB emMe rekeyTransform 0 exFanboy.user rekeyedUser
    (by decide) (by decide) (by decide) (by decide)

/-- Claim C1: a successful `UpdateFanboyByEmail` persists a full replace of
the user's follow and favorite edges: every pre-existing edge of the user
is deleted and exactly the edges implied by the transformed fanboy's
`Following`/`Favorites` sets are re-inserted, empty keys and keys that
resolve to no user email or article slug being silently dropped. -/
theorem UpdateFanboyByEmail_full_replace (db : DB) (em : String)
    (upd : Fanboy → Except Err Fanboy) (t : Nat) (f f1 : Fanboy)
    (hwf : WF db)
    (hl : (GetUserByEmail db em t).1 = Except.ok f)
    (hu : upd f = Except.ok f1) :
    (UpdateFanboyByEmail db em upd t).1 = Except.ok () ∧
    ∃ r0 ∈ db.users, r0.email = em ∧
      (∀ x : Nat × Nat,
        x ∈ (UpdateFanboyByEmail db em upd t).2.1.followedUsers ↔
          ((x ∈ db.followedUsers ∧ x.1 ≠ r0.id) ∨
            ∃ v ∈ db.users, x = (r0.id, v.id) ∧
              v.email ∈ f1.following ∧ v.email ≠ "")) ∧
      (∀ x : Nat × Nat,
        x ∈ (UpdateFanboyByEmail db em upd t).2.1.favoritedArticles ↔
          ((x ∈ db.favoritedArticles ∧ x.1 ≠ r0.id) ∨
            ∃ a ∈ db.articles, x = (r0.id, a.1) ∧
              a.2 ∈ f1.favorites ∧ a.2 ≠ "")) := by
  have hg0 : ∃ u0, getUserByEmail db em = Except.ok u0 := by
    cases hg : getUserByEmail db em with
    | error e =>
        unfold GetUserByEmail at hl
        rw [hg] at hl
        simp at hl
    | ok found => exact ⟨found, rfl⟩
  obtain ⟨u0, hg⟩ := hg0
  obtain ⟨r0, hr0, p0, hp0, hem, hpid, hu0⟩ := getUserByEmail_ok_inv hg
  have hfil : db.users.filter (fun r => r.email == em) = [r0] :=
    filter_key_singleton (fun r => r.email) em (hwf.1.imp fun h => h.2.1) hr0 hem
  have hdel : ∀ x : Nat × Nat,
      (db.users.any fun u => u.email == em && x.1 == u.id) = true ↔ x.1 = r0.id := by
    intro x
    rw [List.any_eq_true]
    constructor
    · rintro ⟨u, hu', hcond⟩
      simp only [Bool.and_eq_true, beq_iff_eq] at hcond
      obtain ⟨he, hid⟩ := hcond
      have hur : u = r0 := users_email_inj hwf hu' hr0 (he.trans hem.symm)
      rw [hid, hur]
    · intro hx
      exact ⟨r0, hr0, by simp [hem, hx]⟩
  rcases hgp : GetUserByEmail db em t with ⟨res, tr⟩
  rw [hgp] at hl
  simp only [] at hl
  subst hl
  unfold UpdateFanboyByEmail
  rw [hgp]
  dsimp only
  rw [hu]
  dsimp only
  rw [hfil]
  refine ⟨rfl, r0, hr0, hem, ?_, ?_⟩
  · intro x
    rw [List.mem_append, List.mem_filter]
    apply or_congr
    · constructor
      · rintro ⟨h1, h2⟩
        rw [Bool.not_eq_true'] at h2
        refine ⟨h1, fun hx => ?_⟩
        rw [← hdel x] at hx
        rw [hx] at h2
        cases h2
      · rintro ⟨h1, h2⟩
        refine ⟨h1, ?_⟩
        rw [Bool.not_eq_true']
        rw [← Bool.not_eq_true]
        rw [hdel x]
        exact h2
    · constructor
      · intro hx
        simp only [List.flatMap_cons, List.flatMap_nil, List.append_nil,
          List.mem_map, List.mem_filter] at hx
        obtain ⟨v, ⟨hv, hcont⟩, hxv⟩ := hx
        rw [List.elem_iff, List.mem_filter] at hcont
        obtain ⟨hmem, hne⟩ := hcont
        rw [bne_iff_ne] at hne
        exact ⟨v, hv, hxv.symm, hmem, hne⟩
      · rintro ⟨v, hv, hxv, hmem, hne⟩
        simp only [List.flatMap_cons, List.flatMap_nil, List.append_nil,
          List.mem_map, List.mem_filter]
        refine ⟨v, ⟨hv, ?_⟩, hxv.symm⟩
        rw [List.elem_iff, List.mem_filter]
        exact ⟨hmem, by rw [bne_iff_ne]; exact hne⟩
  · intro x
    rw [List.mem_append, List.mem_filter]
    apply or_congr
    · constructor
      · rintro ⟨h1, h2⟩
        rw [Bool.not_eq_true'] at h2
        refine ⟨h1, fun hx => ?_⟩
        rw [← hdel x] at hx
        rw [hx] at h2
        cases h2
      · rintro ⟨h1, h2⟩
        refine ⟨h1, ?_⟩
        rw [Bool.not_eq_true']
        rw [← Bool.not_eq_true]
        rw [hdel x]
        exact h2
    · constructor
      · intro hx
        simp only [List.flatMap_cons, List.flatMap_nil, List.append_nil,
          List.mem_map, List.mem_filter] at hx
        obtain ⟨a, ⟨ha, hcont⟩, hxa⟩ := hx
        rw [List.elem_iff, List.mem_filter] at hcont
        obtain ⟨hmem, hne⟩ := hcont
        rw [bne_iff_ne] at hne
        exact ⟨a, ha, hxa.symm, hmem, hne⟩
      · rintro ⟨a, ha, hxa, hmem, hne⟩
        simp only [List.flatMap_cons, List.flatMap_nil, List.append_nil,
          List.mem_map, List.mem_filter]
        refine ⟨a, ⟨ha, ?_⟩, hxa.symm⟩
        rw [List.elem_iff, List.mem_filter]
        exact ⟨hmem, by rw [bne_iff_ne]; exact hne⟩

/-- Witness for C1: the example user's following set A,B is replaced by
B,C (the empty key dropped); the persisted edge rows afterwards are
exactly the edge to B, the edge to C and the unrelated edge of user A. -/
theorem UpdateFanboyByEmail_full_replace_witness :
    ((UpdateFanboyByEmail exDB emMe replaceFollowing 0).1 = Except.ok () ∧
      ∃ r0 ∈ exDB.users, r0.email = emMe ∧
        (∀ x : Nat × Nat,
          x ∈ (UpdateFanboyByEmail exDB emMe replaceFollowing 0).2.1.followedUsers ↔
            ((x ∈ exDB.followedUsers ∧ x.1 ≠ r0.id) ∨
              ∃ v ∈ exDB.users, x = (r0.id, v.id) ∧
                v.email ∈ replacedFanboy.following ∧ v.email ≠ "")) ∧
        (∀ x : Nat × Nat,
          x ∈ (UpdateFanboyByEmail exDB emMe replaceFollowing 0).2.1.favoritedArticles ↔
            ((x ∈ exDB.favoritedArticles ∧ x.1 ≠ r0.id) ∨
              ∃ a ∈ exDB.articles, x = (r0.id, a.1) ∧
                a.2 ∈ replacedFanboy.favorites ∧ a.2 ≠ ""))) ∧
    (UpdateFanboyByEmail exDB emMe replaceFollowing 0).2.1.followedUsers =
      [(2, 1), (1, 3), (1, 4)] :=
  ⟨UpdateFanboyByEmail_full_replace exDB emMe replaceFollowing 0
      exFanboy replacedFanboy (by decide) (by decide) (by decide),
    by decide⟩

/-- Counterexample to C5: at the example state, the successful
`UpdateFanboyByEmail` call loads the aggregate in one transaction and
persists in another, so the load does not run inside the transaction that
performs the persist; and at the empty state, the failed load ends with the
read transaction committed (by `GetUserByEmail`'s deferred commit), not
aborted. -/
theorem load_transaction_discipline_counterexample :
    loadInPersistTx ((UpdateFanboyByEmail exDB emMe keepFanboy 0).2.2) = false ∧
    (UpdateFanboyByEmail emptyDB emMe keepFanboy 0).2.2 =
      [Ev.beginTx 0, Ev.readUser (some 0), Ev.commitTx 0] :=
  ⟨by decide, by decide⟩

/-- Claim C5, amended: `UpdateUserByEmail` follows the discipline — it
begins a transaction, loads inside it, persists in that same transaction,
and a failed load rolls the transaction back leaving the state unchanged.
`UpdateFanboyByEmail` instead loads through `GetUserByEmail` in an earlier,
separate transaction `t` that is committed before the persist transaction
`t+1` begins; a failed load still causes no write and returns the error,
but the read transaction is committed rather than aborted. -/
theorem load_transaction_discipline_amended :
    (∀ (db : DB) (em : String) (upd : User → Except Err User) (t : Nat)
        (fUp fPw : Option Err),
      loadInPersistTx ((UpdateUserByEmail db em upd t fUp fPw).2.2) = true) ∧
    (∀ (db : DB) (em : String) (upd : User → Except Err User) (t : Nat)
        (fUp fPw : Option Err) (e : Err),
      getUserByEmail db em = Except.error e →
        (UpdateUserByEmail db em upd t fUp fPw).1 = Except.error e ∧
        (UpdateUserByEmail db em upd t fUp fPw).2.1 = db ∧
        (UpdateUserByEmail db em upd t fUp fPw).2.2 =
          [Ev.beginTx t, Ev.readUser (some t), Ev.rollbackTx t]) ∧
    (∀ (db : DB) (em : String) (upd : Fanboy → Except Err Fanboy) (t : Nat),
      firstLoadTx ((UpdateFanboyByEmail db em upd t).2.2) = some (some t) ∧
      (∀ s ∈ writeTxs ((UpdateFanboyByEmail db em upd t).2.2), s = t + 1) ∧
      Ev.commitTx t ∈ (UpdateFanboyByEmail db em upd t).2.2) ∧
    (∀ (db : DB) (em : String) (upd : Fanboy → Except Err Fanboy) (t : Nat)
        (e : Err),
      (GetUserByEmail db em t).1 = Except.error e →
        (UpdateFanboyByEmail db em upd t).1 = Except.error e ∧
        (UpdateFanboyByEmail db em upd t).2.1 = db ∧
        writeTxs ((UpdateFanboyByEmail db em upd t).2.2) = []) := by
  refine ⟨?_, ?_, ?_, ?_⟩
  · intro db em upd t fUp fPw
    unfold UpdateUserByEmail
    cases hg : getUserByEmail db em with
    | error e => simp [loadInPersistTx, firstLoadTx, writeTxs]
    | ok u0 =>
        dsimp only
        cases hu : upd u0 with
        | error e => simp [loadInPersistTx, firstLoadTx, writeTxs]
        | ok u1 =>
            dsimp only
            cases hs : updateUsersStmt db em u1 fUp with
            | error e => simp [loadInPersistTx, firstLoadTx, writeTxs]
            | ok pr =>
                rcases pr with ⟨id1, db1⟩
                dsimp only
                cases fPw with
                | some e => simp [loadInPersistTx, firstLoadTx, writeTxs]
                | none => simp [loadInPersistTx, firstLoadTx, writeTxs]
  · intro db em upd t fUp fPw e hl
    unfold UpdateUserByEmail
    rw [hl]
    exact ⟨rfl, rfl, rfl⟩
  · intro db em upd t
    unfold UpdateFanboyByEmail GetUserByEmail
    cases hg : getUserByEmail db em with
    | error e =>
        dsimp only
        refine ⟨by simp [firstLoadTx], by simp [writeTxs], by simp⟩
    | ok found =>
        dsimp only
        cases hu : upd ⟨found, keysOf (followsQuery db em), keysOf (favorsQuery db em)⟩ with
        | error e =>
            dsimp only
            refine ⟨by simp [firstLoadTx], by simp [writeTxs], by simp⟩
        | ok f1 =>
            dsimp only
            refine ⟨by simp [firstLoadTx], ?_, by simp⟩
            intro s hs
            simp [writeTxs] at hs
            exact hs
  · intro db em upd t e hl
    have hw := GetUserByEmail_no_writes db em t
    unfold UpdateFanboyByEmail
    rcases hgp : GetUserByEmail db em t with ⟨res, tr⟩
    rw [hgp] at hl hw
    simp only [] at hl hw
    subst hl
    dsimp only
    exact ⟨rfl, rfl, hw⟩

/-- Witness for the amended C5 at the example state. -/
theorem load_transaction_discipline_amended_witness :
    loadInPersistTx ((UpdateUserByEmail exDB emMe rekeyTransform 0 none none).2.2) =
      true ∧
    ((UpdateUserByEmail emptyDB emMe rekeyTransform 0 none none).1 =
        Except.error Err.userNotFound ∧
      (UpdateUserByEmail emptyDB emMe rekeyTransform 0 none none).2.1 = emptyDB ∧
      (UpdateUserByEmail emptyDB emMe rekeyTransform 0 none none).2.2 =
        [Ev.beginTx 0, Ev.readUser (some 0), Ev.rollbackTx 0]) ∧
    firstLoadTx ((UpdateFanboyByEmail exDB emMe keepFanboy 0).2.2) =
      some (some 0) ∧
    ((UpdateFanboyByEmail emptyDB emMe keepFanboy 0).1 =
        Except.error Err.userNotFound ∧
      (UpdateFanboyByEmail emptyDB emMe keepFanboy 0).2.1 = emptyDB ∧
      writeTxs ((UpdateFanboyByEmail emptyDB emMe keepFanboy 0).2.2) = []) :=
  ⟨load_transaction_discipline_amended.1 exDB emMe rekeyTransform 0 none none,
    load_transaction_discipline_amended.2.1 emptyDB emMe rekeyTransform 0 none none
      Err.userNotFound (by decide),
    (load_transaction_discipline_amended.2.2.1 exDB emMe keepFanboy 0).1,
    load_transaction_discipline_amended.2.2.2 emptyDB emMe keepFanboy 0
      Err.userNotFound (by decide)⟩

lemma string_empty_iff {s : String} : s.length = 0 ↔ s = "" := by
  cases s with
  | mk d =>
      constructor
      · intro h
        have hd : d = [] := List.length_eq_zero.mp h
        rw [hd]
      · intro h
        rw [h]
        decide

/-- Claim C9: `NewUser` fails with `ErrorRequiredUserFields` exactly when
the email or the username is empty and otherwise returns a user carrying
the four fields with an empty following list; `NewUserWithPassword`
rejects an empty password with `ErrorRequiredNewUserFields` before any
other check. -/
theorem NewUser_required_fields :
    (∀ e un b i : String,
      (userdomain.NewUser e un b i =
          Except.error userdomain.UErr.errorRequiredUserFields ↔
        (e = "" ∨ un = "")) ∧
      (e ≠ "" → un ≠ "" →
        userdomain.NewUser e un b i =
          Except.ok (userdomain.User.mk e un b i []))) ∧
    (∀ (gen : String → Except userdomain.UErr (List Nat)) (e un pw : String),
      pw = "" →
        userdomain.NewUserWithPassword gen e un pw =
          Except.error userdomain.UErr.errorRequiredNewUserFields) := by
  constructor
  · intro e un b i
    have hcond : (e.length == 0 || un.length == 0) = true ↔ (e = "" ∨ un = "") := by
      rw [Bool.or_eq_true, beq_iff_eq, beq_iff_eq, string_empty_iff, string_empty_iff]
    constructor
    · unfold userdomain.NewUser
      by_cases hc : (e.length == 0 || un.length == 0) = true
      · rw [if_pos hc]
        exact ⟨fun _ => hcond.mp hc, fun _ => rfl⟩
      · rw [if_neg hc]
        exact ⟨fun h => Except.noConfusion h, fun h => absurd (hcond.mpr h) hc⟩
    · intro he hun
      unfold userdomain.NewUser
      rw [if_neg]
      rw [hcond]
      rintro (h | h)
      · exact he h
      · exact hun h
  · intro gen e un pw hpw
    unfold userdomain.NewUserWithPassword
    rw [if_pos]
    rw [beq_iff_eq, string_empty_iff]
    exact hpw

/-- Witness for C9 on concrete strings. -/
theorem NewUser_required_fields_witness :
    userdomain.NewUser emptyStr sU sB sI =
      Except.error userdomain.UErr.errorRequiredUserFields ∧
    userdomain.NewUser sE sU sB sI =
      Except.ok (userdomain.User.mk sE sU sB sI []) ∧
    userdomain.NewUserWithPassword bcryptGen0 sE sU emptyStr =
      Except.error userdomain.UErr.errorRequiredNewUserFields :=
  ⟨((NewUser_required_fields.1 emptyStr sU sB sI).1).mpr (Or.inl rfl),
    (NewUser_required_fields.1 sE sU sB sI).2 (by decide) (by decide),
    NewUser_required_fields.2 bcryptGen0 sE sU emptyStr rfl⟩

/-- Claim C10: `StartFollowing` is idempotent — when the target is already
followed the following list is unchanged, two consecutive calls equal one
call — and after any call `IsFollowing` the target holds. -/
theorem StartFollowing_idempotent :
    ∀ u fu : userdomain.User,
      (u.IsFollowing fu = true → u.StartFollowing fu = u) ∧
      (u.StartFollowing fu).StartFollowing fu = u.StartFollowing fu ∧
      (u.StartFollowing fu).IsFollowing fu = true := by
  intro u fu
  have hpart1 : ∀ v : userdomain.User,
      v.IsFollowing fu = true → v.StartFollowing fu = v := by
    intro v hv
    unfold userdomain.User.StartFollowing
    rw [if_pos hv]
  have hpart3 : (u.StartFollowing fu).IsFollowing fu = true := by
    by_cases h : u.IsFollowing fu = true
    · rw [hpart1 u h]
      exact h
    · unfold userdomain.User.StartFollowing
      rw [if_neg h]
      cases u with
      | mk e un b i fl =>
          simp [userdomain.User.IsFollowing, userdomain.User.following,
            userdomain.User.email]
  exact ⟨hpart1 u, hpart1 _ hpart3, hpart3⟩

/-- Witness for C10 on concrete users. -/
theorem StartFollowing_idempotent_witness :
    udU.IsFollowing udF = true ∧
    udU.StartFollowing udF = udU ∧
    (udF.StartFollowing udU).StartFollowing udU = udF.StartFollowing udU ∧
    (udF.StartFollowing udU).IsFollowing udU = true :=
  ⟨by decide,
    (StartFollowing_idempotent udU udF).1 (by decide),
    (StartFollowing_idempotent udF udU).2.1,
    (StartFollowing_idempotent udF udU).2.2⟩
